import Mathlib

/-!
A shallow embedding of `split-vectortiles-by-region.py` (geofabrik), with a
verification of its bounding-box computation, tile-list conversion, metadata
rewriting, MBTiles store creation and task building.

Numeric model: the script only touches Python floats through `min`, `max`,
subtraction, halving by the exact constant `0.5` and addition, so coordinates
are modelled as rationals; every concrete value evaluated in a theorem below
is exactly representable in binary floating point, and `min`/`max` are exact
on floats, so the rational model agrees with the float run on those inputs.
-/

/-- `DEFAULT_MAP_ZOOM = 7` (line 17 of the script). -/
def DEFAULT_MAP_ZOOM : ℚ := 7

/-- A bounding box, the 4-element Python list `[min_lon, min_lat, max_lon,
max_lat]`; field `minLon` is `bbox[0]`, `minLat` is `bbox[1]`, `maxLon` is
`bbox[2]`, `maxLat` is `bbox[3]`. -/
structure BBox where
  minLon : ℚ
  minLat : ℚ
  maxLon : ℚ
  maxLat : ℚ
deriving DecidableEq

/-- The Python list `[bbox[0], bbox[1], bbox[2], bbox[3]]` behind a `BBox`. -/
def BBox.toList (b : BBox) : List ℚ :=
  [b.minLon, b.minLat, b.maxLon, b.maxLat]

/-- `merge_bounding_boxes` (lines 36-42). -/
def merge_bounding_boxes (bbox1 bbox2 : BBox) : BBox :=
  { minLon := min bbox1.minLon bbox2.minLon
    minLat := min bbox1.minLat bbox2.minLat
    maxLon := max bbox1.maxLon bbox2.maxLon
    maxLat := max bbox1.maxLat bbox2.maxLat }

/-- `add_to_bbox` (lines 45-51). -/
def add_to_bbox (bbox : BBox) (x y : ℚ) : BBox :=
  { minLon := min bbox.minLon x
    minLat := min bbox.minLat y
    maxLon := max bbox.maxLon x
    maxLat := max bbox.maxLat y }

/-- The seed value `[181.0, 91.0, -181.0, -91.0]` of `bbox_of_ring` (line 55). -/
def initial_bbox : BBox :=
  { minLon := 181, minLat := 91, maxLon := -181, maxLat := -91 }

/-- One element of the nested coordinate structure walked by `bbox_of_ring`:
either a leaf coordinate pair (`elem` is a list whose first entry is a float,
line 57, read as `[lon, lat]`) or a nested list of further elements (line 59).
Elements of any other runtime type never occur in a valid geometry. -/
inductive Coord where
  | pt (lon lat : ℚ)
  | sub (elems : List Coord)

/-- The `for elem in ring` loop body of `bbox_of_ring` (lines 56-60), folding
the running box from left to right over the elements of a ring.  This is the
total restriction of the loop to inputs on which line 57 raises no
exception: for every list element the code evaluates `elem[0]`, so an empty
nested list raises `IndexError` there — that error path is carried by
`bbox_fold_checked` below, which agrees with this function on every input
where it returns a value. -/
def bbox_fold : BBox → List Coord → BBox
  | bbox, [] => bbox
  | bbox, Coord.pt x y :: rest => bbox_fold (add_to_bbox bbox x y) rest
  | bbox, Coord.sub elems :: rest =>
      bbox_fold (merge_bounding_boxes bbox (bbox_fold initial_bbox elems)) rest

/-- The loop of `bbox_of_ring` (lines 56-60) with the error path of line 57:
`type(elem) is list` holds for any list element, so Python evaluates
`elem[0]` next, and an empty nested list raises `IndexError` before either
branch is taken; the exception propagates out of the recursion. -/
def bbox_fold_checked : BBox → List Coord → Except String BBox
  | bbox, [] => Except.ok bbox
  | bbox, Coord.pt x y :: rest => bbox_fold_checked (add_to_bbox bbox x y) rest
  | _, Coord.sub [] :: _ => Except.error "IndexError: list index out of range"
  | bbox, Coord.sub (e :: es) :: rest =>
      match bbox_fold_checked initial_bbox (e :: es) with
      | Except.error msg => Except.error msg
      | Except.ok inner => bbox_fold_checked (merge_bounding_boxes bbox inner) rest

/-- `bbox_of_ring` (lines 54-61), restricted to non-raising inputs: seed the
box and fold all elements in. -/
def bbox_of_ring (ring : List Coord) : BBox :=
  bbox_fold initial_bbox ring

/-- `bbox_of_ring` (lines 54-61) with the `IndexError` path of line 57. -/
def bbox_of_ring_checked (ring : List Coord) : Except String BBox :=
  bbox_fold_checked initial_bbox ring

/-- `get_bbox` (lines 64-67), restricted to non-raising inputs; a geometry
is modelled by its `"coordinates"` member, the nested coordinate
structure. -/
def get_bbox (geometry : List Coord) : BBox :=
  bbox_of_ring geometry

/-- `get_bbox` (lines 64-67) with the `IndexError` path of line 57. -/
def get_bbox_checked (geometry : List Coord) : Except String BBox :=
  bbox_of_ring_checked geometry

/-- `get_center` (lines 70-73), returning the 3-element list
`[lon, lat, DEFAULT_MAP_ZOOM]`. -/
def get_center (bbox : BBox) : List ℚ :=
  [0.5 * (bbox.maxLon - bbox.minLon) + bbox.minLon,
   0.5 * (bbox.maxLat - bbox.minLat) + bbox.minLat,
   DEFAULT_MAP_ZOOM]

/-- All leaf coordinate pairs of a nested coordinate structure, in the order
`bbox_of_ring` folds them in. -/
def coordLeaves : List Coord → List (ℚ × ℚ)
  | [] => []
  | Coord.pt x y :: rest => (x, y) :: coordLeaves rest
  | Coord.sub elems :: rest => coordLeaves elems ++ coordLeaves rest

/-- A coordinate pair lies inside a bounding box. -/
def in_bbox (b : BBox) (p : ℚ × ℚ) : Prop :=
  b.minLon ≤ p.1 ∧ p.1 ≤ b.maxLon ∧ b.minLat ≤ p.2 ∧ p.2 ≤ b.maxLat

instance (b : BBox) (p : ℚ × ℚ) : Decidable (in_bbox b p) := by
  unfold in_bbox; infer_instance

/-- A metadata value: either a string (as stored for most keys) or a list of
numbers (the value computed for `bounds` and `center`; the MBTiles path
serialises such a list as the comma-joined decimal rendering of the same
numbers, lines 146-147, which we keep in numeric form). -/
inductive MetaValue where
  | str (s : String)
  | nums (l : List ℚ)
deriving DecidableEq

/-- Lookup in a Python dict modelled as a key-ordered association list. -/
def dict_get : List (String × MetaValue) → String → Option MetaValue
  | [], _ => none
  | (k', v') :: rest, k => if k' = k then some v' else dict_get rest k

/-- Assignment `d[k] = v` on a Python dict modelled as an association list:
an existing key keeps its position and gets the new value, a new key is
appended at the end (Python dicts preserve insertion order). -/
def dict_set : List (String × MetaValue) → String → MetaValue → List (String × MetaValue)
  | [], k, v => [(k, v)]
  | (k', v') :: rest, k, v =>
      if k' = k then (k, v) :: rest else (k', v') :: dict_set rest k v

/-- `write_metadata_json` (lines 76-91), as the transformation it applies to
the metadata mapping read from `metadata.json`: set `name` and `attribution`
to fixed constants, then replace `bounds` and `center` with the values
computed from the geometry. -/
def write_metadata_json (metadata : List (String × MetaValue)) (geometry : List Coord) :
    List (String × MetaValue) :=
  let m1 := dict_set metadata "name" (MetaValue.str "Shortbread")
  let m2 := dict_set m1 "attribution" (MetaValue.str "OpenStreetMap contributors (ODbL)")
  let bbox := get_bbox geometry
  let m3 := dict_set m2 "bounds" (MetaValue.nums bbox.toList)
  dict_set m3 "center" (MetaValue.nums (get_center bbox))

/-- `write_metadata_json` (lines 76-91) with the `IndexError` path of the
`get_bbox` call on line 84: when the geometry raises, the exception
propagates, the temporary file is never written and no metadata record is
produced (the locally mutated dict is discarded). -/
def write_metadata_json_checked (metadata : List (String × MetaValue))
    (geometry : List Coord) : Except String (List (String × MetaValue)) :=
  match get_bbox_checked geometry with
  | Except.error msg => Except.error msg
  | Except.ok bbox =>
      let m1 := dict_set metadata "name" (MetaValue.str "Shortbread")
      let m2 := dict_set m1 "attribution"
        (MetaValue.str "OpenStreetMap contributors (ODbL)")
      let m3 := dict_set m2 "bounds" (MetaValue.nums bbox.toList)
      Except.ok (dict_set m3 "center" (MetaValue.nums (get_center bbox)))

/-- A tile row of the `tiles` table: `(zoom_level, tile_column, tile_row)`
key plus the `tile_data` blob (modelled as a string). -/
abbrev TileRow := (ℤ × ℤ × ℤ) × String

/-- The logical content of the output MBTiles database file. -/
structure MBStore where
  tiles_table : Bool
  tiles : List TileRow
  has_index : Bool
  metadata : Option (List (String × MetaValue))
deriving DecidableEq

/-- A fresh, empty database file: `create_mbtiles` deletes any pre-existing
file at the output path (lines 143-145) before connecting. -/
def empty_store : MBStore :=
  { tiles_table := false, tiles := [], has_index := false, metadata := none }

/-- The SQL statements of `create_mbtiles` that change the destination
database (lines 162-171).  The `PRAGMA` statements, `ATTACH` and `DETACH`
(lines 155-161, 172) only configure the session and are modelled as absent;
the source database attached as `source` appears as explicit parameters. -/
inductive SqlOp where
  | create_tiles_table
  | insert_tile (t : ℤ × ℤ × ℤ)
  | commit
  | create_tile_index
  | create_metadata_filtered
  | insert_metadata (k : String) (v : MetaValue)
deriving DecidableEq

/-- Effect of one SQL statement on the destination database content, given
the attached source database `src` (its `tiles` rows) and `smeta` (its
`metadata` rows). -/
def apply_op (src : List TileRow) (smeta : List (String × MetaValue)) :
    SqlOp → MBStore → MBStore
  | SqlOp.create_tiles_table, s => { s with tiles_table := true, tiles := [] }
  | SqlOp.insert_tile t, s =>
      { s with tiles := s.tiles ++ src.filter (fun r => r.1 = t) }
  | SqlOp.commit, s => s
  | SqlOp.create_tile_index, s => { s with has_index := true }
  | SqlOp.create_metadata_filtered, s =>
      { s with
        metadata := some (smeta.filter (fun r => ¬(r.1 = "bounds" ∨ r.1 = "center"))) }
  | SqlOp.insert_metadata k v, s =>
      { s with metadata := s.metadata.map (fun m => m ++ [(k, v)]) }

/-- A database session: the pending (in-transaction) state and the state a
reader of the file sees, i.e. what has been committed.  With
`journal_mode = OFF` and `synchronous = OFF` (lines 158-159) a mid-run
failure leaves at best the last committed state in the output file, which
stays on disk. -/
structure Session where
  pending : MBStore
  committed : MBStore
deriving DecidableEq

/-- Execute one statement: `conn.commit()` publishes the pending state,
every other statement updates only the pending state. -/
def sql_step (src : List TileRow) (smeta : List (String × MetaValue))
    (s : Session) : SqlOp → Session
  | SqlOp.commit => { pending := s.pending, committed := s.pending }
  | op => { pending := apply_op src smeta op s.pending, committed := s.committed }

/-- Run a statement list to its final session state. -/
def run_session (src : List TileRow) (smeta : List (String × MetaValue)) :
    Session → List SqlOp → Session
  | s, [] => s
  | s, op :: rest => run_session src smeta (sql_step src smeta s op) rest

/-- The committed (reader-visible) database content after each statement of
a statement list: the store an interruption right after that statement
leaves behind. -/
def run_states (src : List TileRow) (smeta : List (String × MetaValue)) :
    Session → List SqlOp → List MBStore
  | _, [] => []
  | s, op :: rest =>
      let s' := sql_step src smeta s op
      s'.committed :: run_states src smeta s' rest

/-- The session `create_mbtiles` starts with: a fresh empty output file. -/
def init_session : Session :=
  { pending := empty_store, committed := empty_store }

/-- The statement sequence of `create_mbtiles` (lines 162-173), with one
`insert_tile` per entry of `tile_list` and a `commit` wherever the script
calls `conn.commit()` after the tables start being populated: after the tile
loop (line 165), after the index (line 167) and after the metadata rows
(line 171). -/
def create_mbtiles_ops (tile_list : List (ℤ × ℤ × ℤ)) (bbox : BBox) : List SqlOp :=
  SqlOp.create_tiles_table ::
    (tile_list.map SqlOp.insert_tile ++
      [SqlOp.commit, SqlOp.create_tile_index, SqlOp.commit,
       SqlOp.create_metadata_filtered,
       SqlOp.insert_metadata "bounds" (MetaValue.nums bbox.toList),
       SqlOp.insert_metadata "center" (MetaValue.nums (get_center bbox)),
       SqlOp.commit])

/-- `create_mbtiles` (lines 140-183): the content of the output database
after the whole statement sequence has run and committed. -/
def create_mbtiles (src : List TileRow) (smeta : List (String × MetaValue))
    (tile_list : List (ℤ × ℤ × ℤ)) (bbox : BBox) : MBStore :=
  (run_session src smeta init_session (create_mbtiles_ops tile_list bbox)).committed

/-- The tile rows the loop of lines 163-164 copies: for each requested
address, every source row with exactly that `(zoom, column, row)` key, in
request order. -/
def tile_copy (src : List TileRow) : List (ℤ × ℤ × ℤ) → List TileRow
  | [] => []
  | t :: rest => src.filter (fun r => r.1 = t) ++ tile_copy src rest

/-- Python `s.split(sep)` for a one-character separator, on the character
list of the string: `"".split(sep)` is `[""]`, and every occurrence of the
separator starts a new (possibly empty) field. -/
def splitOnChar (sep : Char) : List Char → List (List Char)
  | [] => [[]]
  | c :: rest =>
      if c = sep then [] :: splitOnChar sep rest
      else
        match splitOnChar sep rest with
        | [] => [[c]]
        | h :: t => (c :: h) :: t

/-- The numeric value of a decimal digit character, `none` otherwise. -/
def digitVal (c : Char) : Option ℕ :=
  if 48 ≤ c.toNat ∧ c.toNat ≤ 57 then some (c.toNat - 48) else none

/-- Accumulating decimal parse of a digit run; fails on any non-digit. -/
def parse_digits_aux (acc : ℕ) : List Char → Option ℕ
  | [] => some acc
  | c :: rest =>
      match digitVal c with
      | some d => parse_digits_aux (acc * 10 + d) rest
      | none => none

/-- Parse a non-empty run of decimal digits. -/
def parse_digits (l : List Char) : Option ℕ :=
  if l = [] then none else parse_digits_aux 0 l

/-- Python `int(s)` on the strings reaching `convert_tile_list`: an optional
sign followed by decimal digits (surrounding whitespace and digit-group
underscores, which `int` also accepts, do not occur in tile lists and are
not modelled).  `none` is the `ValueError` that `int` raises otherwise. -/
def python_int (l : List Char) : Option ℤ :=
  match l with
  | [] => none
  | c :: rest =>
      if c = '-' then (parse_digits rest).map (fun n => -(n : ℤ))
      else if c = '+' then (parse_digits rest).map (fun n => (n : ℤ))
      else (parse_digits (c :: rest)).map (fun n => (n : ℤ))

/-- The list comprehension `[int(p) for p in t.split("/")]` (line 133):
parse every field, failing on the first non-integer field. -/
def mapIntParse : List (List Char) → Option (List ℤ)
  | [] => some []
  | p :: rest =>
      match python_int p with
      | some v => (mapIntParse rest).map (fun l => v :: l)
      | none => none

/-- The row-convention flip of line 135: `(2 ** zoom - 1) - row`, from the
south-up row of the tile lister to the north-up row of MBTiles. -/
def flip_row (zoom : ℕ) (r : ℤ) : ℤ :=
  (2 ^ zoom - 1) - r

/-- The body of the loop of lines 133-136 for one non-empty line `t`: split
on `/`, parse all fields as integers (`ValueError` aborts, line 133), then
read fields 0, 1 and 2 (`IndexError` aborts when there are fewer than
three; additional fields are ignored) and flip the row.  Python computes
`2 ** zoom` with the parsed (possibly negative) integer zoom; a negative
zoom would make it a float, so the embedding reads the exponent through
`Int.toNat` and is faithful for `zoom ≥ 0`. -/
def convert_line (t : List Char) : Except String (ℤ × ℤ × ℤ) :=
  match mapIntParse (splitOnChar '/' t) with
  | none => Except.error "ValueError: invalid literal for int"
  | some parts =>
      match parts with
      | p0 :: p1 :: p2 :: _ => Except.ok (p0, p1, flip_row p0.toNat p2)
      | _ => Except.error "IndexError: list index out of range"

/-- The loop of lines 128-137 over the split lines: skip empty lines
(line 131), convert every other line, abort on the first failing line, and
append results in input order. -/
def convert_lines : List (List Char) → Except String (List (ℤ × ℤ × ℤ))
  | [] => Except.ok []
  | t :: rest =>
      if t = [] then convert_lines rest
      else
        match convert_line t with
        | Except.error e => Except.error e
        | Except.ok v => (convert_lines rest).map (fun l => v :: l)

/-- `convert_tile_list` (lines 123-137).  The input is the lister's output
after the `utf-8` decode of line 130, split on newlines. -/
def convert_tile_list (tile_list : String) : Except String (List (ℤ × ℤ × ℤ)) :=
  convert_lines (splitOnChar '\n' tile_list.data)

/-- Decimal digit character for a value below ten. -/
def digitChar (d : ℕ) : Char :=
  Char.ofNat (48 + d)

/-- The decimal digit characters of a natural number, most significant
first, as Python `str` renders a non-negative integer. -/
def renderNat (n : ℕ) : List Char :=
  if _h : n < 10 then [digitChar n]
  else renderNat (n / 10) ++ [digitChar (n % 10)]
decreasing_by exact Nat.div_lt_self (by omega) (by omega)

/-- Python `str` of an integer: decimal digits, with a leading minus sign
for negative values. -/
def renderInt : ℤ → List Char
  | Int.ofNat n => renderNat n
  | Int.negSucc n => '-' :: renderNat (n + 1)

/-- One line of a well-formed tile list: `none` is a blank line, and
`some (z, x, r)` is the line `"z/x/r"` with zoom `z` and south-up row `r`. -/
def render_entry : Option (ℕ × ℤ × ℤ) → List Char
  | none => []
  | some (z, x, r) => renderNat z ++ '/' :: (renderInt x ++ '/' :: renderInt r)

/-- The tile address a well-formed line must translate to: blank lines
disappear, and `"z/x/r"` becomes `(z, x, (2 ^ z - 1) - r)`. -/
def expected_entry : Option (ℕ × ℤ × ℤ) → Option (ℤ × ℤ × ℤ)
  | none => none
  | some (z, x, r) => some ((z : ℤ), x, ((2 : ℤ) ^ z - 1) - r)

/-- Join lines into one text block, each line followed by a newline, as the
tile lister emits its output. -/
def join_lines : List (List Char) → List Char
  | [] => []
  | l :: rest => l ++ '\n' :: join_lines rest

/-- A GeoJSON feature of the region index, reduced to what the script reads:
its `properties.id` (absent properties read as `None`) and the coordinate
structure of its geometry. -/
structure Feature where
  pid : Option String
  geometry : List Coord

/-- `find_region` (lines 248-253): linear search for the first feature whose
`properties.id` equals the requested region id. -/
def find_region (geojson_features : List Feature) (region_id : String) : Option Feature :=
  geojson_features.find? (fun f => f.pid = some region_id)

/-- The task-building loop of the main program (lines 330-344): for every
configured polygon `(id, path)` look up its feature; when the feature is
missing, strict mode exits with an error before any task runs, while
non-strict mode only logs a warning — and still appends a task whose
`geojson_feature` is `None`.  A task is modelled by its output path and the
optional feature handed to the worker. -/
def build_tasks (strict : Bool) (geojson_features : List Feature) :
    List (String × String) → Except String (List (String × Option Feature))
  | [] => Except.ok []
  | (pid, path) :: rest =>
      let feature := find_region geojson_features pid
      if feature.isNone ∧ strict then
        Except.error "Region not found among GeoJSON features."
      else
        (build_tasks strict geojson_features rest).map (fun l => (path, feature) :: l)

/-- A box that the seed can only widen: its minima are at most the seed
minima and its maxima at least the seed maxima. -/
def subseed (b : BBox) : Prop :=
  b.minLon ≤ 181 ∧ b.minLat ≤ 91 ∧ -181 ≤ b.maxLon ∧ -91 ≤ b.maxLat

theorem bbox_fold_widens (b : BBox) (ring : List Coord) :
    (bbox_fold b ring).minLon ≤ b.minLon ∧ (bbox_fold b ring).minLat ≤ b.minLat ∧
    b.maxLon ≤ (bbox_fold b ring).maxLon ∧ b.maxLat ≤ (bbox_fold b ring).maxLat := by
  induction b, ring using bbox_fold.induct with
  | case1 b => simp [bbox_fold]
  | case2 b x y rest ih =>
      obtain ⟨i1, i2, i3, i4⟩ := ih
      simp only [bbox_fold, add_to_bbox] at *
      exact ⟨le_trans i1 (min_le_left _ _), le_trans i2 (min_le_left _ _),
        le_trans (le_max_left _ _) i3, le_trans (le_max_left _ _) i4⟩
  | case3 b elems rest ih1 ih2 =>
      obtain ⟨i1, i2, i3, i4⟩ := ih2
      simp only [bbox_fold, merge_bounding_boxes] at *
      exact ⟨le_trans i1 (min_le_left _ _), le_trans i2 (min_le_left _ _),
        le_trans (le_max_left _ _) i3, le_trans (le_max_left _ _) i4⟩

theorem bbox_fold_mem (b : BBox) (ring : List Coord) :
    ∀ p ∈ coordLeaves ring, in_bbox (bbox_fold b ring) p := by
  induction b, ring using bbox_fold.induct with
  | case1 b => simp [coordLeaves]
  | case2 b x y rest ih =>
      intro p hp
      simp only [coordLeaves, List.mem_cons] at hp
      simp only [bbox_fold]
      rcases hp with rfl | hp
      · obtain ⟨i1, i2, i3, i4⟩ := bbox_fold_widens (add_to_bbox b x y) rest
        simp only [add_to_bbox] at i1 i2 i3 i4
        simp only [in_bbox]
        exact ⟨le_trans i1 (min_le_right _ _), le_trans (le_max_right _ _) i3,
          le_trans i2 (min_le_right _ _), le_trans (le_max_right _ _) i4⟩
      · exact ih p hp
  | case3 b elems rest ih1 ih2 =>
      intro p hp
      simp only [coordLeaves, List.mem_append] at hp
      simp only [bbox_fold]
      rcases hp with hp | hp
      · have hj := ih1 p hp
        simp only [in_bbox] at hj
        obtain ⟨j1, j2, j3, j4⟩ := hj
        obtain ⟨i1, i2, i3, i4⟩ :=
          bbox_fold_widens (merge_bounding_boxes b (bbox_fold initial_bbox elems)) rest
        simp only [merge_bounding_boxes] at i1 i2 i3 i4
        simp only [in_bbox]
        exact ⟨le_trans (le_trans i1 (min_le_right _ _)) j1,
          le_trans j2 (le_trans (le_max_right _ _) i3),
          le_trans (le_trans i2 (min_le_right _ _)) j3,
          le_trans j4 (le_trans (le_max_right _ _) i4)⟩
      · exact ih2 p hp

theorem merge_subseed_right (b : BBox) (hb : subseed b) :
    merge_bounding_boxes b initial_bbox = b := by
  obtain ⟨h1, h2, h3, h4⟩ := hb
  cases b
  simp only [merge_bounding_boxes, initial_bbox, BBox.mk.injEq] at *
  exact ⟨min_eq_left h1, min_eq_left h2, max_eq_left h3, max_eq_left h4⟩

theorem merge_subseed_left (b : BBox) (hb : subseed b) :
    merge_bounding_boxes initial_bbox b = b := by
  obtain ⟨h1, h2, h3, h4⟩ := hb
  cases b
  simp only [merge_bounding_boxes, initial_bbox, BBox.mk.injEq] at *
  exact ⟨min_eq_right h1, min_eq_right h2, max_eq_right h3, max_eq_right h4⟩

theorem bbox_fold_subseed (b : BBox) (ring : List Coord) (hb : subseed b) :
    subseed (bbox_fold b ring) := by
  obtain ⟨i1, i2, i3, i4⟩ := bbox_fold_widens b ring
  obtain ⟨h1, h2, h3, h4⟩ := hb
  exact ⟨le_trans i1 h1, le_trans i2 h2, le_trans h3 i3, le_trans h4 i4⟩

theorem initial_bbox_subseed : subseed initial_bbox := by
  simp [subseed, initial_bbox]

/-- On every input where the checked loop returns a value, it agrees with
the total `bbox_fold`. -/
theorem bbox_fold_checked_ok (b : BBox) (ring : List Coord) :
    ∀ b' : BBox, bbox_fold_checked b ring = Except.ok b' → bbox_fold b ring = b' := by
  induction b, ring using bbox_fold_checked.induct with
  | case1 b =>
      intro b' h
      simp only [bbox_fold_checked, Except.ok.injEq] at h
      simp [bbox_fold, h]
  | case2 b x y rest ih =>
      intro b' h
      rw [bbox_fold_checked] at h
      rw [bbox_fold]
      exact ih b' h
  | case3 b rest =>
      intro b' h
      rw [bbox_fold_checked] at h
      simp at h
  | case4 b e es rest msg herr ihn =>
      intro b' h
      rw [bbox_fold_checked, herr] at h
      simp at h
  | case5 b e es rest inner hok ihn ihrest =>
      intro b' h
      rw [bbox_fold_checked, hok] at h
      rw [bbox_fold, ihn inner hok]
      exact ihrest b' h

/-- A non-empty structure with no leaf coordinate pair always raises: its
elements are all nested lists whose contents are leafless again, so the
recursion necessarily reaches an empty nested list and the `IndexError` of
line 57. -/
theorem bbox_fold_checked_leafless_error (b : BBox) (ring : List Coord) :
    coordLeaves ring = [] → ring ≠ [] →
    ∃ msg, bbox_fold_checked b ring = Except.error msg := by
  induction b, ring using bbox_fold_checked.induct with
  | case1 b =>
      intro _ hne
      exact absurd rfl hne
  | case2 b x y rest ih =>
      intro hleaf _
      simp [coordLeaves] at hleaf
  | case3 b rest =>
      intro _ _
      rw [bbox_fold_checked]
      exact ⟨_, rfl⟩
  | case4 b e es rest msg herr ihn =>
      intro _ _
      rw [bbox_fold_checked, herr]
      exact ⟨msg, rfl⟩
  | case5 b e es rest inner hok ihn ihrest =>
      intro hleaf _
      rw [coordLeaves, List.append_eq_nil] at hleaf
      obtain ⟨msg, hmsg⟩ := ihn hleaf.1 (by simp)
      rw [hok] at hmsg
      simp at hmsg

/-- C1: for every valid nested coordinate structure containing at least one
leaf `[lon, lat]` pair, `bbox_of_ring` returns a box with
`minLon ≤ maxLon` and `minLat ≤ maxLat`, and every leaf coordinate pair of
the structure lies inside the returned box. -/
theorem claim_C1_bbox_correct (ring : List Coord) (h : coordLeaves ring ≠ []) :
    ((bbox_of_ring ring).minLon ≤ (bbox_of_ring ring).maxLon ∧
      (bbox_of_ring ring).minLat ≤ (bbox_of_ring ring).maxLat) ∧
    ∀ p ∈ coordLeaves ring, in_bbox (bbox_of_ring ring) p := by
  have hmem : ∀ p ∈ coordLeaves ring, in_bbox (bbox_of_ring ring) p :=
    bbox_fold_mem initial_bbox ring
  obtain ⟨p, hp⟩ := List.exists_mem_of_ne_nil _ h
  have hin := hmem p hp
  simp only [in_bbox] at hin
  exact ⟨⟨le_trans hin.1 hin.2.1, le_trans hin.2.2.1 hin.2.2.2⟩, hmem⟩

/-- Witness for C1 at the one-leaf ring `[[8.0, 49.0]]`. -/
theorem claim_C1_bbox_correct_witness :
    ((bbox_of_ring [Coord.pt 8 49]).minLon ≤ (bbox_of_ring [Coord.pt 8 49]).maxLon ∧
      (bbox_of_ring [Coord.pt 8 49]).minLat ≤ (bbox_of_ring [Coord.pt 8 49]).maxLat) ∧
    ∀ p ∈ coordLeaves [Coord.pt 8 49], in_bbox (bbox_of_ring [Coord.pt 8 49]) p :=
  claim_C1_bbox_correct [Coord.pt 8 49] (by simp [coordLeaves])

/-- C9 counterexample: `[[]]` is a geometry with no leaf coordinate pair,
yet the bounding-box calculator does not return the seed box for it — line
57 evaluates `elem[0]` on the empty nested list and raises `IndexError`. -/
theorem claim_C9_counterexample :
    coordLeaves [Coord.sub []] = [] ∧
    bbox_of_ring_checked [Coord.sub []] =
      Except.error "IndexError: list index out of range" := by
  constructor
  · simp [coordLeaves]
  · simp [bbox_of_ring_checked, bbox_fold_checked]

/-- C9, as amended: the calculator returns the seed box `(181, 91, -181,
-91)` exactly for the empty geometry `[]`; every other structure with no
leaf coordinate pair raises `IndexError` instead; and the seed box is an
identity of box merging, in either order, for every box the calculator
successfully computes from a structure with at least one real point. -/
theorem claim_C9_seed_cases (ring : List Coord) :
    bbox_of_ring_checked [] = Except.ok initial_bbox ∧
    (coordLeaves ring = [] → ring ≠ [] →
      ∃ msg, bbox_of_ring_checked ring = Except.error msg) ∧
    (∀ b : BBox, bbox_of_ring_checked ring = Except.ok b → coordLeaves ring ≠ [] →
      merge_bounding_boxes initial_bbox b = b ∧
        merge_bounding_boxes b initial_bbox = b) := by
  refine ⟨by simp [bbox_of_ring_checked, bbox_fold_checked], ?_, ?_⟩
  · intro hleaf hne
    exact bbox_fold_checked_leafless_error initial_bbox ring hleaf hne
  · intro b hok _
    have hb : bbox_of_ring ring = b := bbox_fold_checked_ok initial_bbox ring b hok
    have hs : subseed b := by
      rw [← hb]
      exact bbox_fold_subseed initial_bbox ring initial_bbox_subseed
    exact ⟨merge_subseed_left b hs, merge_subseed_right b hs⟩

/-- Witness for C9 as amended: the nested leafless ring `[[[]]]` raises,
and the box `(8, 49, 8, 49)` computed from the one-point ring
`[[8.0, 49.0]]` absorbs the seed under merging on both sides. -/
theorem claim_C9_seed_cases_witness :
    (∃ msg, bbox_of_ring_checked [Coord.sub [Coord.sub []]] = Except.error msg) ∧
    (merge_bounding_boxes initial_bbox (BBox.mk 8 49 8 49) = BBox.mk 8 49 8 49 ∧
      merge_bounding_boxes (BBox.mk 8 49 8 49) initial_bbox = BBox.mk 8 49 8 49) :=
  ⟨(claim_C9_seed_cases [Coord.sub [Coord.sub []]]).2.1 (by simp [coordLeaves]) (by simp),
   (claim_C9_seed_cases [Coord.pt 8 49]).2.2 (BBox.mk 8 49 8 49)
     (by
       simp only [bbox_of_ring_checked, bbox_fold_checked]
       exact congrArg Except.ok (by decide))
     (by simp [coordLeaves])⟩

theorem dict_get_set_same (d : List (String × MetaValue)) (k : String) (v : MetaValue) :
    dict_get (dict_set d k v) k = some v := by
  induction d with
  | nil => simp [dict_set, dict_get]
  | cons kv rest ih =>
      obtain ⟨k', v'⟩ := kv
      by_cases h : k' = k
      · simp [dict_set, dict_get, h]
      · simp [dict_set, dict_get, h, ih]

theorem dict_get_set_ne (d : List (String × MetaValue)) (k k' : String) (v : MetaValue)
    (h : k ≠ k') : dict_get (dict_set d k v) k' = dict_get d k' := by
  induction d with
  | nil => simp [dict_set, dict_get, h]
  | cons kv rest ih =>
      obtain ⟨k0, v0⟩ := kv
      by_cases h0 : k0 = k
      · subst h0
        simp [dict_set, dict_get, h]
      · by_cases h1 : k0 = k'
        · subst h1
          simp [dict_set, dict_get, h0, Ne.symm h]
        · simp [dict_set, dict_get, h0, h1, ih]

theorem run_session_inserts (src : List TileRow) (smeta : List (String × MetaValue))
    (tl : List (ℤ × ℤ × ℤ)) (s : Session) (rest : List SqlOp) :
    run_session src smeta s (tl.map SqlOp.insert_tile ++ rest) =
      run_session src smeta
        { pending := { s.pending with tiles := s.pending.tiles ++ tile_copy src tl },
          committed := s.committed } rest := by
  induction tl generalizing s with
  | nil =>
      obtain ⟨⟨p1, p2, p3, p4⟩, c⟩ := s
      simp [tile_copy]
  | cons t tl ih =>
      obtain ⟨⟨p1, p2, p3, p4⟩, c⟩ := s
      simp only [List.map_cons, List.cons_append, run_session, sql_step, apply_op,
        List.append_eq]
      rw [ih]
      simp [tile_copy, List.append_assoc]

theorem run_states_inserts (src : List TileRow) (smeta : List (String × MetaValue))
    (tl : List (ℤ × ℤ × ℤ)) (s : Session) (rest : List SqlOp) :
    run_states src smeta s (tl.map SqlOp.insert_tile ++ rest) =
      List.replicate tl.length s.committed ++
        run_states src smeta
          { pending := { s.pending with tiles := s.pending.tiles ++ tile_copy src tl },
            committed := s.committed } rest := by
  induction tl generalizing s with
  | nil =>
      obtain ⟨⟨p1, p2, p3, p4⟩, c⟩ := s
      simp [tile_copy]
  | cons t tl ih =>
      obtain ⟨⟨p1, p2, p3, p4⟩, c⟩ := s
      simp only [List.map_cons, List.cons_append, run_states, sql_step, apply_op,
        List.append_eq]
      rw [ih]
      simp [tile_copy, List.append_assoc, List.replicate_succ]

/-- The content of the output database `create_mbtiles` leaves behind on
success: the copied tile rows, the index, and the source metadata without
`bounds`/`center` followed by the freshly computed `bounds` and `center`. -/
theorem create_mbtiles_spec (src : List TileRow) (smeta : List (String × MetaValue))
    (tl : List (ℤ × ℤ × ℤ)) (bbox : BBox) :
    create_mbtiles src smeta tl bbox =
      { tiles_table := true, tiles := tile_copy src tl, has_index := true,
        metadata := some (smeta.filter (fun r => ¬(r.1 = "bounds" ∨ r.1 = "center")) ++
          [("bounds", MetaValue.nums bbox.toList),
           ("center", MetaValue.nums (get_center bbox))]) } := by
  unfold create_mbtiles create_mbtiles_ops
  simp only [run_session, sql_step, apply_op, init_session, empty_store]
  rw [run_session_inserts]
  simp [run_session, sql_step, apply_op]

theorem wm_get_name (md : List (String × MetaValue)) (geom : List Coord) :
    dict_get (write_metadata_json md geom) "name" = some (MetaValue.str "Shortbread") := by
  simp only [write_metadata_json]
  rw [dict_get_set_ne _ _ _ _ (by decide), dict_get_set_ne _ _ _ _ (by decide),
    dict_get_set_ne _ _ _ _ (by decide), dict_get_set_same]

theorem wm_get_attribution (md : List (String × MetaValue)) (geom : List Coord) :
    dict_get (write_metadata_json md geom) "attribution" =
      some (MetaValue.str "OpenStreetMap contributors (ODbL)") := by
  simp only [write_metadata_json]
  rw [dict_get_set_ne _ _ _ _ (by decide), dict_get_set_ne _ _ _ _ (by decide),
    dict_get_set_same]

theorem wm_get_bounds (md : List (String × MetaValue)) (geom : List Coord) :
    dict_get (write_metadata_json md geom) "bounds" =
      some (MetaValue.nums (get_bbox geom).toList) := by
  simp only [write_metadata_json]
  rw [dict_get_set_ne _ _ _ _ (by decide), dict_get_set_same]

theorem wm_get_center (md : List (String × MetaValue)) (geom : List Coord) :
    dict_get (write_metadata_json md geom) "center" =
      some (MetaValue.nums (get_center (get_bbox geom))) := by
  simp only [write_metadata_json]
  rw [dict_get_set_same]

theorem wm_get_other (md : List (String × MetaValue)) (geom : List Coord) (k : String)
    (h1 : ¬k = "name") (h2 : ¬k = "attribution") (h3 : ¬k = "bounds") (h4 : ¬k = "center") :
    dict_get (write_metadata_json md geom) k = dict_get md k := by
  simp only [write_metadata_json]
  rw [dict_get_set_ne _ _ _ _ (fun e => h4 e.symm), dict_get_set_ne _ _ _ _ (fun e => h3 e.symm),
    dict_get_set_ne _ _ _ _ (fun e => h2 e.symm), dict_get_set_ne _ _ _ _ (fun e => h1 e.symm)]

theorem filter_notbc_comm (smeta : List (String × MetaValue))
    (p : (String × MetaValue) → Prop) [DecidablePred p]
    (hp : ∀ r, p r → ¬(r.1 = "bounds" ∨ r.1 = "center")) :
    (smeta.filter (fun r => ¬(r.1 = "bounds" ∨ r.1 = "center"))).filter
        (fun r => decide (p r)) =
      smeta.filter (fun r => decide (p r)) := by
  rw [List.filter_filter]
  apply List.filter_congr
  intro a _
  by_cases hpa : p a
  · have hb := hp a hpa
    push_neg at hb
    simp [hpa, hb.1, hb.2]
  · simp [hpa]

theorem filter_notbc_none (smeta : List (String × MetaValue))
    (p : (String × MetaValue) → Prop) [DecidablePred p]
    (hp : ∀ r, p r → r.1 = "bounds" ∨ r.1 = "center") :
    (smeta.filter (fun r => ¬(r.1 = "bounds" ∨ r.1 = "center"))).filter
        (fun r => decide (p r)) = [] := by
  rw [List.filter_filter]
  rw [List.filter_eq_nil_iff]
  intro a _
  by_cases hpa : p a
  · rcases hp a hpa with e | e <;> simp [e]
  · simp [hpa]

theorem create_mbtiles_meta_key (src : List TileRow) (smeta : List (String × MetaValue))
    (tl : List (ℤ × ℤ × ℤ)) (bbox : BBox) (k : String)
    (hk1 : ¬k = "bounds") (hk2 : ¬k = "center") :
    ((create_mbtiles src smeta tl bbox).metadata.getD []).filter (fun r => r.1 = k) =
      smeta.filter (fun r => r.1 = k) := by
  rw [create_mbtiles_spec]
  simp only [Option.getD_some, List.filter_append]
  rw [filter_notbc_comm smeta (fun r => r.1 = k) (fun r hr => by rw [hr]; tauto)]
  have h1 : ¬("bounds" = k) := fun e => hk1 e.symm
  have h2 : ¬("center" = k) := fun e => hk2 e.symm
  have hlit : List.filter (fun r => decide (r.1 = k))
      [(("bounds" : String), MetaValue.nums bbox.toList),
       ("center", MetaValue.nums (get_center bbox))] = [] := by
    simp [List.filter_cons, h1, h2]
  rw [hlit, List.append_nil]

theorem create_mbtiles_meta_name_attr (src : List TileRow) (smeta : List (String × MetaValue))
    (tl : List (ℤ × ℤ × ℤ)) (bbox : BBox) :
    ((create_mbtiles src smeta tl bbox).metadata.getD []).filter
        (fun r => r.1 = "name" ∨ r.1 = "attribution") =
      smeta.filter (fun r => r.1 = "name" ∨ r.1 = "attribution") := by
  rw [create_mbtiles_spec]
  simp only [Option.getD_some, List.filter_append]
  rw [filter_notbc_comm smeta (fun r => r.1 = "name" ∨ r.1 = "attribution")
    (fun r hr => by rcases hr with h | h <;> rw [h] <;> decide)]
  have hlit : List.filter (fun r => decide (r.1 = "name" ∨ r.1 = "attribution"))
      [(("bounds" : String), MetaValue.nums bbox.toList),
       ("center", MetaValue.nums (get_center bbox))] = [] := by
    simp [List.filter_cons]
  rw [hlit, List.append_nil]

theorem create_mbtiles_meta_bounds (src : List TileRow) (smeta : List (String × MetaValue))
    (tl : List (ℤ × ℤ × ℤ)) (bbox : BBox) :
    ((create_mbtiles src smeta tl bbox).metadata.getD []).filter (fun r => r.1 = "bounds") =
      [("bounds", MetaValue.nums bbox.toList)] := by
  rw [create_mbtiles_spec]
  simp only [Option.getD_some, List.filter_append]
  rw [filter_notbc_none smeta (fun r => r.1 = "bounds") (fun r hr => Or.inl hr)]
  simp [List.filter_cons]

theorem create_mbtiles_meta_center (src : List TileRow) (smeta : List (String × MetaValue))
    (tl : List (ℤ × ℤ × ℤ)) (bbox : BBox) :
    ((create_mbtiles src smeta tl bbox).metadata.getD []).filter (fun r => r.1 = "center") =
      [("center", MetaValue.nums (get_center bbox))] := by
  rw [create_mbtiles_spec]
  simp only [Option.getD_some, List.filter_append]
  rw [filter_notbc_none smeta (fun r => r.1 = "center") (fun r hr => Or.inr hr)]
  simp [List.filter_cons]

/-- C5 counterexample: with source tiles `{(1,0,0)}`, tile list `[(1,0,0)]`
and any metadata, the committed state visible right after the `conn.commit()`
of line 165 (the third statement of the modelled sequence) already contains
the copied tile row while no `metadata` table exists yet: a failure at that
point leaves a partially-visible output store, contrary to the claim of a
single encompassing transaction. -/
theorem claim_C5_counterexample :
    ((run_states [((1, 0, 0), "d")] [("name", MetaValue.str "t")] init_session
        (create_mbtiles_ops [(1, 0, 0)] ⟨0, 0, 0, 0⟩)).get? 2).map
        (fun st => (st.tiles, st.metadata)) =
      some ([((1, 0, 0), "d")], none) := by
  rfl

/-- C5 as amended: the per-tile row copies themselves do run inside one
transaction — no committed state ever shows a proper, non-empty subset of
the copied rows — but the metadata is written in later, separate
transactions, so there is a mid-run failure point at which all copied tile
rows are committed and visible with no metadata at all. -/
theorem claim_C5_single_tile_transaction (src : List TileRow)
    (smeta : List (String × MetaValue)) (tl : List (ℤ × ℤ × ℤ)) (bbox : BBox) :
    (∀ st ∈ run_states src smeta init_session (create_mbtiles_ops tl bbox),
        st.tiles = [] ∨ st.tiles = tile_copy src tl) ∧
    (∃ st ∈ run_states src smeta init_session (create_mbtiles_ops tl bbox),
        st.tiles = tile_copy src tl ∧ st.metadata = none) := by
  have hrs : run_states src smeta init_session (create_mbtiles_ops tl bbox) =
      empty_store ::
        (List.replicate tl.length empty_store ++
          [⟨true, tile_copy src tl, false, none⟩, ⟨true, tile_copy src tl, false, none⟩,
           ⟨true, tile_copy src tl, true, none⟩, ⟨true, tile_copy src tl, true, none⟩,
           ⟨true, tile_copy src tl, true, none⟩, ⟨true, tile_copy src tl, true, none⟩,
           ⟨true, tile_copy src tl, true,
             some (smeta.filter (fun r => ¬(r.1 = "bounds" ∨ r.1 = "center")) ++
               [("bounds", MetaValue.nums bbox.toList),
                ("center", MetaValue.nums (get_center bbox))])⟩]) := by
    unfold create_mbtiles_ops
    simp only [run_states, sql_step, apply_op, init_session, empty_store]
    rw [run_states_inserts]
    simp [run_states, sql_step, apply_op]
  constructor
  · intro st hst
    rw [hrs] at hst
    rcases List.mem_cons.mp hst with rfl | hst
    · left; rfl
    rcases List.mem_append.mp hst with hrep | hlit
    · rw [List.eq_of_mem_replicate hrep]
      left; rfl
    simp only [List.mem_cons, List.not_mem_nil, or_false] at hlit
    rcases hlit with rfl | rfl | rfl | rfl | rfl | rfl | rfl <;> (right; rfl)
  · refine ⟨⟨true, tile_copy src tl, false, none⟩, ?_, rfl, rfl⟩
    rw [hrs]
    simp

/-- Witness for C5 as amended, at a one-tile source and list. -/
theorem claim_C5_single_tile_transaction_witness :
    (MBStore.mk true [((1, 0, 0), "d")] false none).tiles = [] ∨
      (MBStore.mk true [((1, 0, 0), "d")] false none).tiles =
        tile_copy [((1, 0, 0), "d")] [(1, 0, 0)] :=
  (claim_C5_single_tile_transaction [((1, 0, 0), "d")] [] [(1, 0, 0)] ⟨0, 0, 0, 0⟩).1
    ⟨true, [((1, 0, 0), "d")], false, none⟩ (by decide)

/-- C6 counterexample: in the tar.gz variant a region build runs the
metadata through `write_metadata_json`, which does not pass the `name` key
through unchanged: a source value `"osm"` comes out replaced. -/
theorem claim_C6_counterexample :
    dict_get (write_metadata_json [("name", MetaValue.str "osm")] []) "name" ≠
      some (MetaValue.str "osm") := by
  rw [wm_get_name]
  decide

/-- C6 as amended: in the MBTiles variant every source metadata key other
than `bounds` and `center` is passed through with its value unchanged and
`bounds`/`center` are fully replaced by the recomputed values; in the
tar.gz variant the same holds only for keys other than `name` and
`attribution`, which are additionally overwritten with fixed constants. -/
theorem claim_C6_metadata_passthrough :
    (∀ (src : List TileRow) (smeta : List (String × MetaValue)) (tl : List (ℤ × ℤ × ℤ))
        (bbox : BBox) (k : String), ¬k = "bounds" → ¬k = "center" →
        ((create_mbtiles src smeta tl bbox).metadata.getD []).filter (fun r => r.1 = k) =
          smeta.filter (fun r => r.1 = k)) ∧
    (∀ (src : List TileRow) (smeta : List (String × MetaValue)) (tl : List (ℤ × ℤ × ℤ))
        (bbox : BBox),
        ((create_mbtiles src smeta tl bbox).metadata.getD []).filter
            (fun r => r.1 = "bounds") = [("bounds", MetaValue.nums bbox.toList)] ∧
        ((create_mbtiles src smeta tl bbox).metadata.getD []).filter
            (fun r => r.1 = "center") = [("center", MetaValue.nums (get_center bbox))]) ∧
    (∀ (md : List (String × MetaValue)) (geom : List Coord) (k : String),
        ¬k = "name" → ¬k = "attribution" → ¬k = "bounds" → ¬k = "center" →
        dict_get (write_metadata_json md geom) k = dict_get md k) ∧
    (∀ (md : List (String × MetaValue)) (geom : List Coord),
        dict_get (write_metadata_json md geom) "bounds" =
          some (MetaValue.nums (get_bbox geom).toList) ∧
        dict_get (write_metadata_json md geom) "center" =
          some (MetaValue.nums (get_center (get_bbox geom)))) := by
  refine ⟨?_, ?_, ?_, ?_⟩
  · intro src smeta tl bbox k hk1 hk2
    exact create_mbtiles_meta_key src smeta tl bbox k hk1 hk2
  · intro src smeta tl bbox
    exact ⟨create_mbtiles_meta_bounds src smeta tl bbox,
      create_mbtiles_meta_center src smeta tl bbox⟩
  · intro md geom k h1 h2 h3 h4
    exact wm_get_other md geom k h1 h2 h3 h4
  · intro md geom
    exact ⟨wm_get_bounds md geom, wm_get_center md geom⟩

/-- Witness for C6 as amended: the key `"format"` passes through the
MBTiles build unchanged. -/
theorem claim_C6_metadata_passthrough_witness :
    ((create_mbtiles [] [("format", MetaValue.str "pbf")] []
        ⟨0, 0, 0, 0⟩).metadata.getD []).filter (fun r => r.1 = "format") =
      ([("format", MetaValue.str "pbf")] :
          List (String × MetaValue)).filter (fun r => r.1 = "format") :=
  claim_C6_metadata_passthrough.1 [] [("format", MetaValue.str "pbf")] [] ⟨0, 0, 0, 0⟩
    "format" (by decide) (by decide)

/-- C7 counterexample: the MBTiles variant does not overwrite `name` — the
source value `"OldName"` is still the value of `name` in the output store's
metadata, not the fixed constant. -/
theorem claim_C7_counterexample :
    dict_get ((create_mbtiles [] [("name", MetaValue.str "OldName")] []
        ⟨0, 0, 0, 0⟩).metadata.getD []) "name" ≠ some (MetaValue.str "Shortbread") := by
  rw [create_mbtiles_spec]
  decide

/-- C7 as amended: only the tar.gz variant's `write_metadata_json`
overwrites `name` and `attribution` with the fixed organizational
constants; the MBTiles variant passes both keys through from the source
store unchanged. -/
theorem claim_C7_name_attribution :
    (∀ (md : List (String × MetaValue)) (geom : List Coord),
        dict_get (write_metadata_json md geom) "name" =
          some (MetaValue.str "Shortbread") ∧
        dict_get (write_metadata_json md geom) "attribution" =
          some (MetaValue.str "OpenStreetMap contributors (ODbL)")) ∧
    (∀ (src : List TileRow) (smeta : List (String × MetaValue)) (tl : List (ℤ × ℤ × ℤ))
        (bbox : BBox),
        ((create_mbtiles src smeta tl bbox).metadata.getD []).filter
            (fun r => r.1 = "name" ∨ r.1 = "attribution") =
          smeta.filter (fun r => r.1 = "name" ∨ r.1 = "attribution")) := by
  constructor
  · intro md geom
    exact ⟨wm_get_name md geom, wm_get_attribution md geom⟩
  · intro src smeta tl bbox
    exact create_mbtiles_meta_name_attr src smeta tl bbox

/-- When the geometry raises no exception, the checked metadata rewrite
succeeds and agrees with the total `write_metadata_json`. -/
theorem write_metadata_json_checked_ok (md : List (String × MetaValue))
    (geom : List Coord) (b : BBox) (h : get_bbox_checked geom = Except.ok b) :
    write_metadata_json_checked md geom = Except.ok (write_metadata_json md geom) := by
  rw [write_metadata_json_checked, h]
  have hb : get_bbox geom = b := bbox_fold_checked_ok initial_bbox geom b h
  simp only [write_metadata_json, hb]

/-- C10 counterexample: for the leafless geometry `[[]]` the `get_bbox`
call of line 84 raises `IndexError`, the exception propagates, and no
metadata record is produced at all — rather than one carrying the seed
bounds and center `(0, 0, 7)`. -/
theorem claim_C10_counterexample :
    coordLeaves [Coord.sub []] = [] ∧
    write_metadata_json_checked [] [Coord.sub []] =
      Except.error "IndexError: list index out of range" := by
  constructor
  · simp [coordLeaves]
  · simp [write_metadata_json_checked, get_bbox_checked, bbox_of_ring_checked,
      bbox_fold_checked]

/-- C10, as amended: the center computation on the seed box yields exactly
`(0, 0, 7)`; for a region whose geometry coordinates are the empty list
`[]`, the rewritten metadata is produced with `bounds` equal to the
inverted seed box and `center` `(0, 0, 7)` — in the tar.gz variant through
`write_metadata_json` and in the MBTiles variant through the box handed to
`create_mbtiles` — and no caller checks the "no data" sentinel; any other
geometry with no leaf coordinate pair raises `IndexError` instead, so no
metadata is produced for it. -/
theorem claim_C10_seed_center (md : List (String × MetaValue)) (src : List TileRow)
    (smeta : List (String × MetaValue)) (tl : List (ℤ × ℤ × ℤ)) :
    get_center initial_bbox = [0, 0, 7] ∧
    get_bbox_checked [] = Except.ok initial_bbox ∧
    write_metadata_json_checked md [] = Except.ok (write_metadata_json md []) ∧
    dict_get (write_metadata_json md []) "bounds" =
      some (MetaValue.nums [181, 91, -181, -91]) ∧
    dict_get (write_metadata_json md []) "center" = some (MetaValue.nums [0, 0, 7]) ∧
    (((create_mbtiles src smeta tl initial_bbox).metadata.getD []).filter
        (fun r => r.1 = "bounds") =
          [("bounds", MetaValue.nums [181, 91, -181, -91])] ∧
      ((create_mbtiles src smeta tl initial_bbox).metadata.getD []).filter
        (fun r => r.1 = "center") = [("center", MetaValue.nums [0, 0, 7])]) ∧
    ∀ geom : List Coord, coordLeaves geom = [] → geom ≠ [] →
      ∃ msg, write_metadata_json_checked md geom = Except.error msg := by
  have hnil : get_bbox_checked ([] : List Coord) = Except.ok initial_bbox := by
    simp [get_bbox_checked, bbox_of_ring_checked, bbox_fold_checked]
  have hgb : get_bbox ([] : List Coord) = initial_bbox :=
    bbox_fold_checked_ok initial_bbox [] initial_bbox hnil
  have hc : get_center initial_bbox = [0, 0, 7] := by
    simp only [get_center, initial_bbox, DEFAULT_MAP_ZOOM]
    norm_num
  have hl : initial_bbox.toList = [181, 91, -181, -91] := by
    simp [BBox.toList, initial_bbox]
  refine ⟨hc, hnil, write_metadata_json_checked_ok md [] initial_bbox hnil,
    ?_, ?_, ⟨?_, ?_⟩, ?_⟩
  · rw [wm_get_bounds, hgb, hl]
  · rw [wm_get_center, hgb, hc]
  · rw [create_mbtiles_meta_bounds, hl]
  · rw [create_mbtiles_meta_center, hc]
  · intro geom hleaf hne
    obtain ⟨msg, hmsg⟩ := bbox_fold_checked_leafless_error initial_bbox geom hleaf hne
    have hgc : get_bbox_checked geom = Except.error msg := hmsg
    rw [write_metadata_json_checked, hgc]
    exact ⟨msg, rfl⟩

/-- Witness for C10 as amended: the nested leafless geometry `[[[]]]` makes
the metadata rewrite fail instead of producing a record. -/
theorem claim_C10_seed_center_witness :
    ∃ msg, write_metadata_json_checked [] [Coord.sub [Coord.sub []]] =
      Except.error msg :=
  (claim_C10_seed_center [] [] [] []).2.2.2.2.2.2 [Coord.sub [Coord.sub []]]
    (by simp [coordLeaves]) (by simp)

/-- C2: for every zoom `z ≥ 0` and south-up row `r` with `0 ≤ r < 2 ^ z`,
the row-convention flip of `convert_tile_list` is an involution:
`f (f r) = r`. -/
theorem claim_C2_flip_involution (z : ℕ) (r : ℤ) (_h1 : 0 ≤ r) (_h2 : r < 2 ^ z) :
    flip_row z (flip_row z r) = r := by
  unfold flip_row
  ring

/-- Witness for C2 at `z = 3`, `r = 2`. -/
theorem claim_C2_flip_involution_witness :
    (0 : ℤ) ≤ 2 ∧ (2 : ℤ) < 2 ^ 3 ∧ flip_row 3 (flip_row 3 2) = 2 :=
  ⟨by decide, by decide, claim_C2_flip_involution 3 2 (by decide) (by decide)⟩

/-- C8, evaluated at the failing input (one configured region id `"missing"`
absent from the index, one present id `"a"`): in strict mode the loop exits
with an error before any store is built, but in non-strict (lenient) mode
the loop does **not** skip the missing region — it still schedules a task
for it whose `geojson_feature` is `None` (the missing `continue` after the
warning of line 341), alongside the task of the present region. -/
theorem claim_C8_missing_region_eval :
    build_tasks true [⟨some "a", []⟩] [("missing", "out"), ("a", "out2")] =
      Except.error "Region not found among GeoJSON features." ∧
    build_tasks false [⟨some "a", []⟩] [("missing", "out"), ("a", "out2")] =
      Except.ok [("out", none), ("out2", some ⟨some "a", []⟩)] := by
  constructor <;> rfl

theorem splitOnChar_not_mem (sep : Char) (l : List Char) (h : sep ∉ l) :
    splitOnChar sep l = [l] := by
  induction l with
  | nil => rfl
  | cons c rest ih =>
      simp only [List.mem_cons, not_or] at h
      simp [splitOnChar, Ne.symm h.1, ih h.2]

theorem splitOnChar_append (sep : Char) (l1 l2 : List Char) (h : sep ∉ l1) :
    splitOnChar sep (l1 ++ sep :: l2) = l1 :: splitOnChar sep l2 := by
  induction l1 with
  | nil => simp [splitOnChar]
  | cons c rest ih =>
      simp only [List.mem_cons, not_or] at h
      simp [splitOnChar, Ne.symm h.1, ih h.2]

theorem parse_digits_aux_append (acc : ℕ) (l1 l2 : List Char) :
    parse_digits_aux acc (l1 ++ l2) =
      (parse_digits_aux acc l1).bind (fun m => parse_digits_aux m l2) := by
  induction l1 generalizing acc with
  | nil => simp [parse_digits_aux]
  | cons c rest ih =>
      cases hd : digitVal c with
      | some d => simp [parse_digits_aux, hd, ih]
      | none => simp [parse_digits_aux, hd]

theorem digitVal_digitChar : ∀ d : ℕ, d < 10 → digitVal (digitChar d) = some d := by
  decide

theorem digitChar_toNat : ∀ d : ℕ, d < 10 → (digitChar d).toNat = 48 + d := by
  decide

theorem renderNat_digits (n : ℕ) : ∀ c ∈ renderNat n, 48 ≤ c.toNat ∧ c.toNat ≤ 57 := by
  induction n using renderNat.induct with
  | case1 n h =>
      intro c hc
      rw [renderNat, dif_pos h] at hc
      simp only [List.mem_singleton] at hc
      subst hc
      rw [digitChar_toNat n h]
      omega
  | case2 n h ih =>
      intro c hc
      rw [renderNat, dif_neg h] at hc
      simp only [List.mem_append, List.mem_singleton] at hc
      rcases hc with hc | hc
      · exact ih c hc
      · subst hc
        rw [digitChar_toNat (n % 10) (Nat.mod_lt n (by omega))]
        omega

theorem renderNat_ne_nil (n : ℕ) : renderNat n ≠ [] := by
  rw [renderNat]
  split <;> simp

theorem renderNat_parse (n : ℕ) : ∀ acc : ℕ,
    parse_digits_aux acc (renderNat n) =
      some (acc * 10 ^ (renderNat n).length + n) := by
  induction n using renderNat.induct with
  | case1 n h =>
      intro acc
      rw [renderNat, dif_pos h]
      simp only [parse_digits_aux, digitVal_digitChar n h, List.length_singleton, pow_one]
  | case2 n h ih =>
      intro acc
      rw [renderNat, dif_neg h]
      rw [parse_digits_aux_append, ih acc]
      simp only [Option.some_bind, parse_digits_aux,
        digitVal_digitChar (n % 10) (Nat.mod_lt n (by omega)), List.length_append,
        List.length_singleton]
      rw [pow_succ, ← mul_assoc, add_mul, Option.some.injEq]
      have hdm := Nat.div_add_mod n 10
      omega

theorem parse_digits_renderNat (n : ℕ) : parse_digits (renderNat n) = some n := by
  unfold parse_digits
  rw [if_neg (renderNat_ne_nil n), renderNat_parse n 0]
  simp

theorem python_int_renderNat (n : ℕ) : python_int (renderNat n) = some (n : ℤ) := by
  obtain ⟨c, t, hct⟩ := List.exists_cons_of_ne_nil (renderNat_ne_nil n)
  have hc : 48 ≤ c.toNat ∧ c.toNat ≤ 57 :=
    renderNat_digits n c (hct ▸ List.mem_cons_self c t)
  have hminus : ¬(c = '-') := by
    intro e
    rw [e] at hc
    exact absurd hc (by decide)
  have hplus : ¬(c = '+') := by
    intro e
    rw [e] at hc
    exact absurd hc (by decide)
  rw [hct]
  show python_int (c :: t) = some (n : ℤ)
  rw [python_int, if_neg hminus, if_neg hplus, ← hct, parse_digits_renderNat]
  rfl

theorem python_int_renderInt (i : ℤ) : python_int (renderInt i) = some i := by
  cases i with
  | ofNat n => exact python_int_renderNat n
  | negSucc n =>
      rw [renderInt]
      rw [python_int, if_pos rfl, parse_digits_renderNat]
      simp [Int.negSucc_eq]

theorem slash_not_mem_renderNat (n : ℕ) : '/' ∉ renderNat n := by
  intro h
  exact absurd (renderNat_digits n '/' h) (by decide)

theorem newline_not_mem_renderNat (n : ℕ) : '\n' ∉ renderNat n := by
  intro h
  exact absurd (renderNat_digits n '\n' h) (by decide)

theorem slash_not_mem_renderInt (i : ℤ) : '/' ∉ renderInt i := by
  cases i with
  | ofNat n => exact slash_not_mem_renderNat n
  | negSucc n =>
      intro h
      rw [renderInt] at h
      rcases List.mem_cons.mp h with e | h
      · exact absurd e (by decide)
      · exact slash_not_mem_renderNat _ h

theorem newline_not_mem_renderInt (i : ℤ) : '\n' ∉ renderInt i := by
  cases i with
  | ofNat n => exact newline_not_mem_renderNat n
  | negSucc n =>
      intro h
      rw [renderInt] at h
      rcases List.mem_cons.mp h with e | h
      · exact absurd e (by decide)
      · exact newline_not_mem_renderNat _ h

theorem newline_not_mem_render_entry (item : Option (ℕ × ℤ × ℤ)) :
    '\n' ∉ render_entry item := by
  cases item with
  | none => simp [render_entry]
  | some zxr =>
      obtain ⟨z, x, r⟩ := zxr
      rw [render_entry]
      intro hmem
      simp only [List.mem_append, List.mem_cons] at hmem
      rcases hmem with h | h | h | h | h
      · exact newline_not_mem_renderNat z h
      · exact absurd h (by decide)
      · exact newline_not_mem_renderInt x h
      · exact absurd h (by decide)
      · exact newline_not_mem_renderInt r h

theorem mapIntParse_length (l : List (List Char)) (v : List ℤ)
    (h : mapIntParse l = some v) : v.length = l.length := by
  induction l generalizing v with
  | nil =>
      simp only [mapIntParse, Option.some.injEq] at h
      subst h
      rfl
  | cons p rest ih =>
      rw [mapIntParse] at h
      cases hp : python_int p with
      | none => rw [hp] at h; exact absurd h (by simp)
      | some x =>
          rw [hp] at h
          cases hr : mapIntParse rest with
          | none => rw [hr] at h; exact absurd h (by simp)
          | some w =>
              rw [hr] at h
              simp at h
              subst h
              simp [ih w hr]

theorem convert_line_render (z : ℕ) (x r : ℤ) :
    convert_line (render_entry (some (z, x, r))) =
      Except.ok ((z : ℤ), x, ((2 : ℤ) ^ z - 1) - r) := by
  have hsplit : splitOnChar '/' (renderNat z ++ '/' :: (renderInt x ++ '/' :: renderInt r)) =
      [renderNat z, renderInt x, renderInt r] := by
    rw [splitOnChar_append _ _ _ (slash_not_mem_renderNat z),
      splitOnChar_append _ _ _ (slash_not_mem_renderInt x),
      splitOnChar_not_mem _ _ (slash_not_mem_renderInt r)]
  rw [render_entry, convert_line, hsplit]
  rw [mapIntParse, python_int_renderNat, mapIntParse, python_int_renderInt,
    mapIntParse, python_int_renderInt, mapIntParse]
  simp [flip_row]

theorem convert_lines_render (items : List (Option (ℕ × ℤ × ℤ))) :
    convert_lines (items.map render_entry ++ [[]]) =
      Except.ok (items.filterMap expected_entry) := by
  induction items with
  | nil => rfl
  | cons item rest ih =>
      cases item with
      | none =>
          show convert_lines ([] :: (List.map render_entry rest ++ [[]])) =
            Except.ok (List.filterMap expected_entry (none :: rest))
          rw [convert_lines, if_pos rfl, ih]
          simp [List.filterMap_cons, expected_entry]
      | some zxr =>
          obtain ⟨z, x, r⟩ := zxr
          have hne : render_entry (some (z, x, r)) ≠ [] := by
            rw [render_entry]
            simp
          show convert_lines (render_entry (some (z, x, r)) ::
              (List.map render_entry rest ++ [[]])) =
            Except.ok (List.filterMap expected_entry (some (z, x, r) :: rest))
          rw [convert_lines, if_neg hne, convert_line_render]
          show (convert_lines (List.map render_entry rest ++ [[]])).map
              (fun l => (((z : ℕ) : ℤ), x, ((2 : ℤ) ^ z - 1) - r) :: l) =
            Except.ok (List.filterMap expected_entry (some (z, x, r) :: rest))
          rw [ih]
          rfl

theorem splitOnChar_join_lines (lines : List (List Char))
    (h : ∀ l ∈ lines, '\n' ∉ l) :
    splitOnChar '\n' (join_lines lines) = lines ++ [[]] := by
  induction lines with
  | nil => rfl
  | cons l rest ih =>
      rw [join_lines, splitOnChar_append _ _ _ (h l (List.mem_cons_self l rest)),
        ih (fun l' hl' => h l' (List.mem_cons_of_mem l hl'))]
      rfl

/-- C3: `convert_tile_list` turns `"3/5/2\n3/1/0\n"` into exactly
`[(3,5,5), (3,1,7)]`; in general, for every well-formed input (a sequence of
blank lines and `"z/x/r"` integer lines, each ended by a newline), blank
lines are skipped, each line `"z/x/r"` becomes `(z, x, (2 ^ z - 1) - r)`,
and the output preserves the input line order with no deduplication. -/
theorem claim_C3_convert_order :
    convert_tile_list "3/5/2\n3/1/0\n" = Except.ok [(3, 5, 5), (3, 1, 7)] ∧
    ∀ items : List (Option (ℕ × ℤ × ℤ)),
      convert_tile_list (String.mk (join_lines (items.map render_entry))) =
        Except.ok (items.filterMap expected_entry) := by
  constructor
  · rfl
  · intro items
    unfold convert_tile_list
    have hdata : (String.mk (join_lines (items.map render_entry))).data =
        join_lines (items.map render_entry) := rfl
    rw [hdata, splitOnChar_join_lines _ ?hnl]
    case hnl =>
      intro l hl
      rcases List.mem_map.mp hl with ⟨item, _, rfl⟩
      exact newline_not_mem_render_entry item
    exact convert_lines_render items

theorem convert_lines_error_of_mem (lines : List (List Char)) (t : List Char)
    (ht : t ∈ lines) (hne : t ≠ []) (he : ∃ e, convert_line t = Except.error e) :
    ∃ msg, convert_lines lines = Except.error msg := by
  induction lines with
  | nil => exact absurd ht (List.not_mem_nil t)
  | cons l rest ih =>
      rcases List.mem_cons.mp ht with rfl | ht'
      · obtain ⟨e, he⟩ := he
        rw [convert_lines, if_neg hne, he]
        exact ⟨e, rfl⟩
      · by_cases hl : l = []
        · rw [convert_lines, if_pos hl]
          exact ih ht'
        · rw [convert_lines, if_neg hl]
          cases hc : convert_line l with
          | error e => exact ⟨e, rfl⟩
          | ok v =>
              obtain ⟨m, hm⟩ := ih ht'
              rw [hm]
              exact ⟨m, rfl⟩

/-- C4 counterexample: the line `"1/2/3/4"` has four fields, not three, yet
`convert_tile_list` does not fail on it — it silently truncates the line to
its first three fields and emits the address `(1, 2, -2)`. -/
theorem claim_C4_counterexample :
    convert_tile_list "1/2/3/4\n" = Except.ok [(1, 2, -2)] := by
  rfl

/-- C4 as amended: a non-empty line with fewer than three fields, or with
any non-integer field, makes the whole translation fail with an error — it
is never silently skipped; a line with more than three integer fields,
however, is accepted silently with the extra fields ignored. -/
theorem claim_C4_malformed_line (s : String) (t : List Char)
    (ht : t ∈ splitOnChar '\n' s.data) (hne : t ≠ [])
    (hbad : mapIntParse (splitOnChar '/' t) = none ∨ (splitOnChar '/' t).length < 3) :
    ∃ msg, convert_tile_list s = Except.error msg := by
  have herr : ∃ e, convert_line t = Except.error e := by
    rcases hbad with hb | hb
    · rw [convert_line, hb]
      exact ⟨_, rfl⟩
    · cases hm : mapIntParse (splitOnChar '/' t) with
      | none =>
          rw [convert_line, hm]
          exact ⟨_, rfl⟩
      | some parts =>
          have hlen : parts.length < 3 := by
            rw [mapIntParse_length _ _ hm]
            exact hb
          rw [convert_line, hm]
          rcases parts with _ | ⟨a, _ | ⟨b, _ | ⟨c, more⟩⟩⟩
          · exact ⟨_, rfl⟩
          · exact ⟨_, rfl⟩
          · exact ⟨_, rfl⟩
          · refine absurd hlen ?_
            simp only [List.length_cons]
            omega
  exact convert_lines_error_of_mem _ t ht hne herr

/-- Witness for C4 as amended, at the two-field line `"1/2"`. -/
theorem claim_C4_malformed_line_witness :
    ∃ msg, convert_tile_list "1/2\n" = Except.error msg :=
  claim_C4_malformed_line "1/2\n" ['1', '/', '2'] (by decide) (by decide)
    (Or.inr (by decide))
